import Mathlib

/-!
Verification of the core of the Oracle OCI → CloudZero AnyCost adaptor:
record normalization (`src/oci_transform.py`, `src/csv_to_cbf.py`),
batch planning and upload orchestration (`src/cloudzero.py`), the month
specifier parser (`parse_month_range`), and CSV output round-tripping.

Python values are embedded shallowly:

* a CBF record (Python `Dict[str, str]`, insertion ordered) is a
  `List (String × String)`;
* machine integers are `Nat`/`Int`; monetary amounts parsed from decimal
  literals are scaled decimals `Dec` (mantissa / 10 ^ exponent), which model
  Python floats exactly on the sign/zero questions the spec asks about;
* fallible functions return `Option`/`Except`;
* `json.dumps(..., separators=(',', ':')).encode('utf-8')` is embedded by a
  byte-size function (`payloadSize` etc.), since the batching code only ever
  uses the serialized byte length.
-/

deriving instance DecidableEq for Except

namespace OciAdaptor

/-- A CBF record: Python `Dict[str, str]` in insertion order. -/
abbrev Row := List (String × String)

/-! ### JSON payload byte sizes (`cloudzero.py _calculate_payload_size`)

`json.dumps` is called with `separators=(',',':')` and (default)
`ensure_ascii=True`, and the result is UTF-8 encoded; since every non-ASCII
character is `\uXXXX`-escaped the byte length equals the character count of
the compact rendering.  We embed the byte length directly. -/

/-- Number of bytes `json.dumps` (compact, `ensure_ascii=True`) emits for one
character of a string: 2 for the short escapes (`\"`, `\\`, `\b`, `\t`,
`\n`, `\f`, `\r`), 6 for other control characters and for non-ASCII
characters of the basic plane (`\uXXXX`), 12 for astral characters
(surrogate pair), 1 otherwise. -/
def jsonEscLen (c : Char) : Nat :=
  if c.toNat = 34 ∨ c.toNat = 92 ∨ c.toNat = 8 ∨ c.toNat = 9 ∨
      c.toNat = 10 ∨ c.toNat = 12 ∨ c.toNat = 13 then 2
  else if c.toNat < 32 then 6
  else if c.toNat ≤ 126 then 1
  else if c.toNat ≤ 65535 then 6
  else 12

/-- Byte length of the JSON rendering of a Python `str` (the two quotes plus
the escaped characters). -/
def jsonStrSize (s : String) : Nat :=
  2 + (s.data.map jsonEscLen).sum

/-- Byte length of the compact JSON rendering of one CBF record
(`{"k":"v",...}`): braces, one `"k":"v"` per entry, commas between. -/
def jsonRowSize (r : Row) : Nat :=
  2 + (r.map (fun kv => jsonStrSize kv.1 + 1 + jsonStrSize kv.2)).sum + (r.length - 1)

/-- Byte length of the compact JSON rendering of a list of records. -/
def jsonArraySize (rows : List Row) : Nat :=
  2 + (rows.map jsonRowSize).sum + (rows.length - 1)

/-- Byte length of `{"month":month,"operation":operation,"data":rows}` in
compact JSON — the value `_calculate_payload_size` returns for the payloads
built by `upload_billing_data`. -/
def payloadSize (month operation : String) (rows : List Row) : Nat :=
  2 + (jsonStrSize "month" + 1 + jsonStrSize month)
    + 1 + (jsonStrSize "operation" + 1 + jsonStrSize operation)
    + 1 + (jsonStrSize "data" + 1 + jsonArraySize rows)

/-- `base_size` in `_split_into_batches`: size of the base envelope
`{"month": "2025-01", "operation": "replace_drop", "data": []}`. -/
def baseSize : Nat := payloadSize "2025-01" "replace_drop" []

/-- `row_size` in `_split_into_batches`: serialized row size plus 10 bytes of
padding for JSON formatting. -/
def rowEst (r : Row) : Nat := jsonRowSize r + 10

/-- `int(4.5 * 1024 * 1024)` — the planner's default per-batch ceiling. -/
def maxBatchBytes : Nat := 4718592

/-- `5 * 1024 * 1024` — the hard limit that triggers batching at all. -/
def hardLimitBytes : Nat := 5242880

/-! ### The batch planner (`cloudzero.py _split_into_batches`) -/

/-- The planner's accumulation loop.  State: remaining rows, `current_batch`,
`current_size`.  Before adding a row whose padded size would push
`current_size + base_size` past the limit while the current batch is
non-empty, the current batch is closed and a fresh one started with that
row; the final non-empty batch is emitted at the end. -/
def splitAux (maxB base : Nat) : List Row → List Row → Nat → List (List Row)
  | [], cur, _ => if cur.isEmpty then [] else [cur]
  | r :: rest, cur, sz =>
      if sz + rowEst r + base > maxB ∧ cur ≠ [] then
        cur :: splitAux maxB base rest [r] (rowEst r)
      else
        splitAux maxB base rest (cur ++ [r]) (sz + rowEst r)

/-- `_split_into_batches(cbf_rows, max_size_mb=4.5)`. -/
def splitIntoBatches (rows : List Row) (maxB : Nat := maxBatchBytes) : List (List Row) :=
  splitAux maxB baseSize rows [] 0

theorem splitAux_join (maxB base : Nat) :
    ∀ (rest cur : List Row) (sz : Nat),
      (splitAux maxB base rest cur sz).flatten = cur ++ rest := by
  intro rest
  induction rest with
  | nil =>
      intro cur sz
      by_cases h : cur.isEmpty
      · simp [splitAux, h, List.isEmpty_iff.mp h]
      · simp [splitAux, h]
  | cons r rest ih =>
      intro cur sz
      by_cases h : sz + rowEst r + base > maxB ∧ cur ≠ []
      · simp [splitAux, h, ih]
      · simp [splitAux, h, ih]

theorem splitAux_ne_nil (maxB base : Nat) :
    ∀ (rest cur : List Row) (sz : Nat) (b : List Row),
      b ∈ splitAux maxB base rest cur sz → b ≠ [] := by
  intro rest
  induction rest with
  | nil =>
      intro cur sz b hb
      by_cases h : cur.isEmpty
      · simp [splitAux, h] at hb
      · simp [splitAux, h] at hb
        subst hb
        exact fun hc => h (by simp [hc])
  | cons r rest ih =>
      intro cur sz b hb
      by_cases h : sz + rowEst r + base > maxB ∧ cur ≠ []
      · simp [splitAux, h] at hb
        rcases hb with hb | hb
        · subst hb; exact h.2
        · exact ih _ _ _ hb
      · simp [splitAux, h] at hb
        exact ih _ _ _ hb

/-- C10: concatenating the planner's batches, in order, gives back exactly the
input rows, and every batch is non-empty — for every input and size limit. -/
theorem split_batches_exact_partition (rows : List Row) (maxB : Nat) :
    (splitIntoBatches rows maxB).flatten = rows ∧
      ∀ b ∈ splitIntoBatches rows maxB, b ≠ [] := by
  constructor
  · simpa using splitAux_join maxB baseSize rows [] 0
  · intro b hb
    exact splitAux_ne_nil maxB baseSize rows [] 0 b hb

/-- Witness for C10 at a concrete input: two rows, a 60-byte limit. -/
theorem split_batches_exact_partition_witness :
    (splitIntoBatches [[("a", "1")], [("b", "2")]] 60).flatten
        = [[("a", "1")], [("b", "2")]] ∧
      [[("a", "1")]] ≠ ([] : List Row) := by
  constructor
  · exact (split_batches_exact_partition [[("a", "1")], [("b", "2")]] 60).1
  · exact (split_batches_exact_partition [[("a", "1")], [("b", "2")]] 60).2
      [[("a", "1")]] (by decide)

/-! ### Per-batch size bound (C4) -/

/-- Sum of padded row-size estimates over a batch — the quantity the planner
tracks in `current_size`. -/
def batchEst (b : List Row) : Nat := (b.map rowEst).sum

theorem batchEst_append_single (cur : List Row) (r : Row) :
    batchEst (cur ++ [r]) = batchEst cur + rowEst r := by
  simp [batchEst]

/-- Planner loop invariant: the tracked size is exactly `batchEst cur`, and the
batch under construction either fits under the limit (with envelope) or is a
lone oversized row; every emitted batch then satisfies the same disjunction. -/
theorem splitAux_size_invariant (maxB base : Nat) :
    ∀ (rest cur : List Row) (sz : Nat), sz = batchEst cur →
      (batchEst cur + base ≤ maxB ∨ ∃ r, cur = [r] ∧ rowEst r + base > maxB) →
      ∀ b ∈ splitAux maxB base rest cur sz,
        batchEst b + base ≤ maxB ∨ ∃ r, b = [r] ∧ rowEst r + base > maxB := by
  intro rest
  induction rest with
  | nil =>
      intro cur sz hsz hinv b hb
      by_cases h : cur.isEmpty
      · simp [splitAux, h] at hb
      · simp [splitAux, h] at hb
        subst hb
        exact hinv
  | cons r rest ih =>
      intro cur sz hsz hinv b hb
      by_cases h : sz + rowEst r + base > maxB ∧ cur ≠ []
      · simp only [splitAux, if_pos h, List.mem_cons] at hb
        rcases hb with hb | hb
        · subst hb; exact hinv
        · refine ih [r] (rowEst r) (by simp [batchEst]) ?_ b hb
          by_cases hr : rowEst r + base ≤ maxB
          · exact Or.inl (by simpa [batchEst] using hr)
          · exact Or.inr ⟨r, rfl, by omega⟩
      · simp only [splitAux, if_neg h] at hb
        refine ih (cur ++ [r]) (sz + rowEst r)
          (by rw [batchEst_append_single, hsz]) ?_ b hb
        rcases not_and_or.mp h with h1 | h2
        · left
          rw [batchEst_append_single, ← hsz]
          omega
        · have hcur : cur = [] := not_not.mp h2
          subst hcur
          by_cases hr : rowEst r + base ≤ maxB
          · exact Or.inl (by simpa [batchEst] using hr)
          · exact Or.inr ⟨r, rfl, by omega⟩

/-! ### The month regex `^\d{4}-\d{2}$` -/

/-- `\d` of the month regex (ASCII digit). -/
def isDigitChar (c : Char) : Bool :=
  decide (48 ≤ c.toNat) && decide (c.toNat ≤ 57)

/-- `re.compile(r'^\d{4}-\d{2}$').match(s)` succeeds: exactly four digits, a
dash, two digits. -/
def monthPattern (s : String) : Bool :=
  match s.data with
  | [a, b, c, d, e, f, g] =>
      isDigitChar a && isDigitChar b && isDigitChar c && isDigitChar d &&
        (e == '-') && isDigitChar f && isDigitChar g
  | _ => false

theorem jsonEscLen_eq_one {c : Char} (h1 : 32 ≤ c.toNat) (h2 : c.toNat ≤ 126)
    (h3 : c.toNat ≠ 34) (h4 : c.toNat ≠ 92) : jsonEscLen c = 1 := by
  unfold jsonEscLen
  rw [if_neg (by omega), if_neg (by omega), if_pos (by omega)]

theorem jsonEscLen_of_digit {c : Char} (h : isDigitChar c = true) :
    jsonEscLen c = 1 := by
  simp only [isDigitChar, Bool.and_eq_true, decide_eq_true_eq] at h
  exact jsonEscLen_eq_one (by omega) (by omega) (by omega) (by omega)

/-- A string matching the month regex serializes to exactly 9 JSON bytes
(7 characters plus quotes). -/
theorem jsonStrSize_of_monthPattern {s : String} (h : monthPattern s = true) :
    jsonStrSize s = 9 := by
  unfold monthPattern at h
  split at h
  case h_2 => exact absurd h (by simp)
  case h_1 a b c d e f g heq =>
    simp only [Bool.and_eq_true, beq_iff_eq] at h
    obtain ⟨⟨⟨⟨⟨⟨ha, hb⟩, hc⟩, hd⟩, he⟩, hf⟩, hg⟩ := h
    have hdash : jsonEscLen e = 1 := by
      subst he; decide
    simp [jsonStrSize, heq, jsonEscLen_of_digit, ha, hb, hc, hd, hf, hg, hdash]

theorem jsonStrSize_op_le {op : String}
    (hop : op = "replace_drop" ∨ op = "replace_hourly" ∨ op = "sum") :
    jsonStrSize op ≤ 16 := by
  rcases hop with hop | hop | hop
  all_goals subst hop
  all_goals decide

theorem batchEst_eq (b : List Row) :
    batchEst b = (b.map jsonRowSize).sum + 10 * b.length := by
  induction b with
  | nil => simp [batchEst]
  | cons r rest ihb =>
      simp only [batchEst, List.map_cons, List.sum_cons, rowEst,
        List.length_cons] at *
      omega

/-- The actual serialized payload of a non-empty batch is dominated by the
planner's estimate: the 10-byte-per-row padding covers the commas and any
difference between the caller's month/operation and the planner's fixed
base envelope. -/
theorem payloadSize_le_of_est {m op : String} {b : List Row}
    (hm : jsonStrSize m = 9) (hop : jsonStrSize op ≤ 16) (hne : b ≠ [])
    (hest : batchEst b + baseSize ≤ maxBatchBytes) :
    payloadSize m op b ≤ maxBatchBytes := by
  have hlen : 1 ≤ b.length := List.length_pos.mpr hne
  have hbe := batchEst_eq b
  have hbase : baseSize = 56 := by decide
  have hm7 : jsonStrSize "month" = 7 := by decide
  have hop11 : jsonStrSize "operation" = 11 := by decide
  have hd6 : jsonStrSize "data" = 6 := by decide
  simp only [payloadSize, jsonArraySize, hm7, hop11, hd6, hm]
  rw [hbase, hbe] at hest
  omega

/-- C4: if the caller-supplied month matches `YYYY-MM`, the operation is one of
the three documented operation types, and the full payload exceeds the 5 MiB
hard ceiling, then every batch the planner produces serializes (base envelope
plus rows, compact JSON) to at most the 4.5 MiB per-batch ceiling — except a
batch holding a single row which alone exceeds that ceiling. -/
theorem batch_sizes_under_ceiling (m op : String) (rows : List Row)
    (hm : monthPattern m = true)
    (hop : op = "replace_drop" ∨ op = "replace_hourly" ∨ op = "sum")
    (hbig : payloadSize m op rows > hardLimitBytes) :
    ∀ b ∈ splitIntoBatches rows,
      payloadSize m op b ≤ maxBatchBytes ∨
        ∃ r, b = [r] ∧ payloadSize m op [r] > maxBatchBytes := by
  intro b hb
  have hne : b ≠ [] := splitAux_ne_nil maxBatchBytes baseSize rows [] 0 b hb
  have hinv := splitAux_size_invariant maxBatchBytes baseSize rows [] 0 rfl
    (Or.inl (by decide)) b hb
  have hm9 := jsonStrSize_of_monthPattern hm
  have hople := jsonStrSize_op_le hop
  rcases hinv with hfit | ⟨r, rfl, hover⟩
  · exact Or.inl (payloadSize_le_of_est hm9 hople hne hfit)
  · by_cases hp : payloadSize m op [r] ≤ maxBatchBytes
    · exact Or.inl hp
    · exact Or.inr ⟨r, rfl, by omega⟩

theorem jsonStrSize_replicate_a (n : Nat) :
    jsonStrSize (String.mk (List.replicate n 'a')) = n + 2 := by
  have h1 : jsonEscLen 'a' = 1 := by decide
  simp [jsonStrSize, List.map_replicate, h1, List.sum_replicate]
  omega

/-- Six million characters of `a`. -/
def bigStr : String := String.mk (List.replicate 6000000 'a')

/-- A row whose single value is `bigStr` — large enough that the full payload
breaks the 5 MiB hard ceiling. -/
def bigRow : Row := [("k", bigStr)]

theorem jsonStrSize_bigStr : jsonStrSize bigStr = 6000002 := by
  rw [bigStr, jsonStrSize_replicate_a]

theorem payloadSize_single_entry (m op k v : String) :
    payloadSize m op [[(k, v)]] =
      36 + jsonStrSize m + jsonStrSize op + jsonStrSize k + jsonStrSize v := by
  have hrow : jsonRowSize [(k, v)] = 3 + jsonStrSize k + jsonStrSize v := by
    simp [jsonRowSize]
    omega
  have hmon : jsonStrSize "month" = 7 := by decide
  have hopn : jsonStrSize "operation" = 11 := by decide
  have hdat : jsonStrSize "data" = 6 := by decide
  simp only [payloadSize, jsonArraySize, hmon, hopn, hdat, hrow,
    List.map_cons, List.map_nil, List.sum_cons, List.sum_nil, List.length_cons,
    List.length_nil]
  omega

theorem payloadSize_bigRow :
    payloadSize "2024-08" "replace_drop" [bigRow] = 6000064 := by
  have hk : jsonStrSize "k" = 3 := by decide
  have hm : jsonStrSize "2024-08" = 9 := by decide
  have ho : jsonStrSize "replace_drop" = 14 := by decide
  rw [bigRow, payloadSize_single_entry, hk, hm, ho, jsonStrSize_bigStr]

/-- Witness for C4: concrete month, operation and oversized input. -/
theorem batch_sizes_under_ceiling_witness :
    monthPattern "2024-08" = true ∧
      ("replace_drop" = "replace_drop" ∨ "replace_drop" = "replace_hourly" ∨
        "replace_drop" = "sum") ∧
      payloadSize "2024-08" "replace_drop" [bigRow] > hardLimitBytes ∧
      ∀ b ∈ splitIntoBatches [bigRow],
        payloadSize "2024-08" "replace_drop" b ≤ maxBatchBytes ∨
          ∃ r, b = [r] ∧
            payloadSize "2024-08" "replace_drop" [r] > maxBatchBytes := by
  have hbig : payloadSize "2024-08" "replace_drop" [bigRow] > hardLimitBytes := by
    rw [payloadSize_bigRow]; decide
  exact ⟨by decide, Or.inl rfl, hbig,
    batch_sizes_under_ceiling "2024-08" "replace_drop" [bigRow]
      (by decide) (Or.inl rfl) hbig⟩

/-! ### The upload orchestrator (`cloudzero.py upload_billing_data`)

The network and console side effects are outside the embedding; what is
modelled is the data the orchestrator computes: which batches it plans,
which operation tag each sent batch carries, and the aggregate result built
from per-batch outcomes. -/

/-- The batched upload loop's operation assignment
(`for i, batch in enumerate(batches, 1): operation if i == 1 else "sum"`),
carrying the 1-based counter, paired with each planned batch. -/
def batchOps (operation : String) : List (List Row) → Nat → List (String × List Row)
  | [], _ => []
  | b :: rest, i =>
      (if i = 1 then operation else "sum", b) :: batchOps operation rest (i + 1)

/-- Operation tag and rows of each request prepared in the batched path of
`upload_billing_data` (both the dry-run loop and the real send loop assign
operations this way). -/
def batchedPlan (operation : String) (batches : List (List Row)) :
    List (String × List Row) :=
  batchOps operation batches 1

/-- `strptime(month, "%Y-%m")` succeeds: exactly four digits, `-`, a one- or
two-digit month in 1..12, whole string consumed, year at least 1 (CPython's
`TimeRE` uses `\d\d\d\d` for `%Y` and `1[0-2]|0[1-9]|[1-9]` for `%m`;
`datetime` rejects year 0). Returns (year, month). -/
def strptimeYM (s : String) : Option (Nat × Nat) :=
  match s.data with
  | [y1, y2, y3, y4, d, m1, m2] =>
      if isDigitChar y1 && isDigitChar y2 && isDigitChar y3 && isDigitChar y4 &&
          (d == '-') && isDigitChar m1 && isDigitChar m2 then
        let y := 1000 * (y1.toNat - 48) + 100 * (y2.toNat - 48) +
          10 * (y3.toNat - 48) + (y4.toNat - 48)
        let mo := 10 * (m1.toNat - 48) + (m2.toNat - 48)
        if 1 ≤ y ∧ 1 ≤ mo ∧ mo ≤ 12 then some (y, mo) else none
      else none
  | [y1, y2, y3, y4, d, m1] =>
      if isDigitChar y1 && isDigitChar y2 && isDigitChar y3 && isDigitChar y4 &&
          (d == '-') && isDigitChar m1 then
        let y := 1000 * (y1.toNat - 48) + 100 * (y2.toNat - 48) +
          10 * (y3.toNat - 48) + (y4.toNat - 48)
        let mo := m1.toNat - 48
        if 1 ≤ y ∧ 1 ≤ mo then some (y, mo) else none
      else none
  | _ => none

/-- The plan `upload_billing_data(cbf_rows, month, operation)` commits to
before any network traffic: empty input and bad months raise `ValueError`;
a payload over the 5 MiB hard limit is split and run through the batched
loop; otherwise a single request with all rows and the caller's operation. -/
def uploadPlan (rows : List Row) (month operation : String) :
    Except String (List (String × List Row)) :=
  if rows = [] then .error "No CBF data provided"
  else
    match strptimeYM month with
    | none => .error "Invalid month format. Must be YYYY-MM"
    | some _ =>
        if payloadSize month operation rows > hardLimitBytes then
          .ok (batchedPlan operation (splitIntoBatches rows))
        else
          .ok [(operation, rows)]

theorem batchOps_after_first (operation : String) :
    ∀ (batches : List (List Row)) (i : Nat), 2 ≤ i →
      (batchOps operation batches i).map Prod.fst =
        List.replicate batches.length "sum" := by
  intro batches
  induction batches with
  | nil => intro i _; simp [batchOps]
  | cons b rest ih =>
      intro i hi
      have hne1 : i ≠ 1 := by omega
      have hi1 : 2 ≤ i + 1 := by omega
      simp [batchOps, hne1, ih (i + 1) hi1, List.replicate_succ]

/-- C1: in the batched (over-5-MiB, non-dry-run) path, the first planned batch
is sent with the caller-supplied operation and every later batch with `sum`,
whatever the original operation was; with three planned batches and
`replace_drop` the operation sequence is exactly
`["replace_drop", "sum", "sum"]`. -/
theorem first_batch_keeps_operation_rest_sum :
    (∀ (operation : String) (batches : List (List Row)),
        (batchedPlan operation batches).map Prod.fst =
          match batches with
          | [] => []
          | _ :: rest => operation :: List.replicate rest.length "sum") ∧
      ∀ b1 b2 b3 : List Row,
        (batchedPlan "replace_drop" [b1, b2, b3]).map Prod.fst =
          ["replace_drop", "sum", "sum"] := by
  have h2 : (2 : Nat) ≤ 2 := by omega
  have hmain : ∀ (operation : String) (batches : List (List Row)),
      (batchedPlan operation batches).map Prod.fst =
        match batches with
        | [] => []
        | _ :: rest => operation :: List.replicate rest.length "sum" := by
    intro operation batches
    cases batches with
    | nil => simp [batchedPlan, batchOps]
    | cons b rest =>
        simp [batchedPlan, batchOps, batchOps_after_first operation rest 2 h2]
  refine ⟨hmain, ?_⟩
  intro b1 b2 b3
  rw [hmain]
  rfl

/-- C5: a non-empty input with a valid month whose full payload stays at or
under the 5 MiB hard ceiling is planned as exactly one request holding all
rows in order with the caller's operation, regardless of the planner's
4.5 MiB threshold. -/
theorem small_payload_single_batch (rows : List Row) (month operation : String)
    (hne : rows ≠ []) (hmv : strptimeYM month ≠ none)
    (hsz : payloadSize month operation rows ≤ hardLimitBytes) :
    uploadPlan rows month operation = .ok [(operation, rows)] := by
  unfold uploadPlan
  rw [if_neg hne]
  cases hym : strptimeYM month with
  | none => exact absurd hym hmv
  | some ym =>
      simp only
      rw [if_neg (by omega)]

/-- Witness for C5: a 4-row payload far below 5 MiB. -/
theorem small_payload_single_batch_witness :
    [[("cost/cost", "1.5")]] ≠ ([] : List Row) ∧
      strptimeYM "2024-08" ≠ none ∧
      payloadSize "2024-08" "replace_drop" [[("cost/cost", "1.5")]] ≤ hardLimitBytes ∧
      uploadPlan [[("cost/cost", "1.5")]] "2024-08" "replace_drop" =
        .ok [("replace_drop", [[("cost/cost", "1.5")]])] := by
  refine ⟨by decide, by decide, by decide, ?_⟩
  exact small_payload_single_batch [[("cost/cost", "1.5")]] "2024-08"
    "replace_drop" (by decide) (by decide) (by decide)

/-! ### Upload execution with partial failure (C3)

`_upload_single_batch` performs the POST; its outcome is modelled by a
network oracle `ok : Nat → Bool` telling whether the request for the i-th
planned batch succeeds (2xx) or fails (timeout / HTTP error / network
error).  On success it returns `success=True, records_uploaded=len(batch)`;
on failure `success=False, records_uploaded=0`. -/

/-- The fields of `_upload_single_batch`'s result the orchestrator reads. -/
structure BatchResult where
  success : Bool
  records_uploaded : Nat
deriving DecidableEq, Repr

/-- Result of `_upload_single_batch` for the `i`-th batch under oracle `ok`. -/
def sendBatch (okI : Bool) (b : List Row) : BatchResult :=
  if okI then ⟨true, b.length⟩ else ⟨false, 0⟩

/-- The send loop of the batched path: upload batches in order, append each
result, and stop at the first failure (`if not result["success"]: break`). -/
def runBatchesAux (ok : Nat → Bool) : List (List Row) → Nat → List BatchResult
  | [], _ => []
  | b :: rest, i =>
      let r := sendBatch (ok i) b
      if r.success then r :: runBatchesAux ok rest (i + 1) else [r]

/-- The aggregate dictionary returned by the batched path of
`upload_billing_data`. -/
structure AggregateResult where
  success : Bool
  batches_uploaded : Nat
  total_batches : Nat
  records_uploaded : Nat
  batch_results : List BatchResult
deriving DecidableEq, Repr

/-- Aggregate of the batched upload loop:
`success_count = sum(1 for r in results if r["success"])`,
`total_uploaded = sum(r["records_uploaded"] for r in results if r["success"])`,
overall `success = (success_count == len(batches))`. -/
def runBatches (ok : Nat → Bool) (batches : List (List Row)) : AggregateResult :=
  let results := runBatchesAux ok batches 0
  let succ := (results.filter (fun r => r.success)).length
  let total := ((results.filter (fun r => r.success)).map
    (fun r => r.records_uploaded)).sum
  ⟨decide (succ = batches.length), succ, batches.length, total, results⟩

theorem runBatchesAux_all_ok (ok : Nat → Bool) :
    ∀ (batches : List (List Row)) (s : Nat),
      (∀ j, j < batches.length → ok (s + j) = true) →
      runBatchesAux ok batches s = batches.map (fun b => ⟨true, b.length⟩) := by
  intro batches
  induction batches with
  | nil => intro s _; simp [runBatchesAux]
  | cons b rest ih =>
      intro s hok
      have h0 : ok s = true := by simpa using hok 0 (by simp)
      have hrest : ∀ j, j < rest.length → ok (s + 1 + j) = true := by
        intro j hj
        have := hok (j + 1) (by simp; omega)
        simpa [Nat.add_assoc, Nat.add_comm 1 j] using this
      simp [runBatchesAux, sendBatch, h0, ih (s + 1) hrest]

theorem runBatchesAux_fail_at (ok : Nat → Bool) :
    ∀ (batches : List (List Row)) (s k : Nat), k < batches.length →
      (∀ j, j < k → ok (s + j) = true) → ok (s + k) = false →
      runBatchesAux ok batches s =
        (batches.take k).map (fun b => ⟨true, b.length⟩) ++ [⟨false, 0⟩] := by
  intro batches
  induction batches with
  | nil => intro s k hk; simp at hk
  | cons b rest ih =>
      intro s k hk hpre hfail
      cases k with
      | zero =>
          have h0 : ok s = false := by simpa using hfail
          simp [runBatchesAux, sendBatch, h0]
      | succ k =>
          have h0 : ok s = true := by simpa using hpre 0 (by omega)
          have hpre' : ∀ j, j < k → ok (s + 1 + j) = true := by
            intro j hj
            have := hpre (j + 1) (by omega)
            simpa [Nat.add_assoc, Nat.add_comm 1 j] using this
          have hfail' : ok (s + 1 + k) = false := by
            have : s + 1 + k = s + (k + 1) := by omega
            rw [this]; exact hfail
          have hk' : k < rest.length := by simpa using Nat.lt_of_succ_lt_succ hk
          simp [runBatchesAux, sendBatch, h0, ih (s + 1) k hk' hpre' hfail',
            List.take_succ_cons]

/-- C3: (a) the batched upload reports overall success exactly when every
planned batch's request succeeds; (b) if the requests for the first `k`
batches succeed and the one for batch `k` (0-based) fails, then no later
batch is sent — the result list is exactly the `k` successes followed by the
one failure, in send order — and the aggregate reports `success = false`,
`batches_uploaded = k`, and `records_uploaded` equal to the summed lengths
of the successful batches. -/
theorem upload_halts_on_first_failure (ok : Nat → Bool) (batches : List (List Row)) :
    ((runBatches ok batches).success = true ↔
        ∀ j, j < batches.length → ok j = true) ∧
      ∀ k, k < batches.length → (∀ j, j < k → ok j = true) → ok k = false →
        (runBatches ok batches).batch_results =
            (batches.take k).map (fun b => ⟨true, b.length⟩) ++ [⟨false, 0⟩] ∧
          (runBatches ok batches).success = false ∧
          (runBatches ok batches).batches_uploaded = k ∧
          (runBatches ok batches).records_uploaded =
            ((batches.take k).map List.length).sum := by
  have hfilter_map : ∀ (l : List (List Row)),
      (l.map (fun b => (⟨true, b.length⟩ : BatchResult))).filter
        (fun r => r.success) = l.map (fun b => ⟨true, b.length⟩) := by
    intro l
    induction l with
    | nil => simp
    | cons x xs ihx => simp [ihx]
  constructor
  · constructor
    · intro hsucc j hj
      by_contra hfail
      have hfail' : ok j = false := by
        cases hok : ok j
        · rfl
        · exact absurd hok hfail
      obtain ⟨k, hkj, hkpre, hkfail⟩ : ∃ k, k < batches.length ∧
          (∀ i, i < k → ok i = true) ∧ ok k = false := by
        have hex : ∃ n, ok n = false := ⟨j, hfail'⟩
        refine ⟨Nat.find hex, lt_of_le_of_lt (Nat.find_le hfail') hj, ?_,
          Nat.find_spec hex⟩
        intro i hi
        have hmin := Nat.find_min hex hi
        cases hoi : ok i
        · exact absurd hoi hmin
        · rfl
      have hres : runBatchesAux ok batches 0 =
          (batches.take k).map (fun b => ⟨true, b.length⟩) ++ [⟨false, 0⟩] :=
        runBatchesAux_fail_at ok batches 0 k hkj
          (fun i hi => by simpa using hkpre i hi) (by simpa using hkfail)
      have hfilterA : List.filter (fun r : BatchResult => r.success)
            (List.map (fun b : List Row => (⟨true, b.length⟩ : BatchResult))
              (batches.take k) ++ [⟨false, 0⟩]) =
          List.map (fun b : List Row => (⟨true, b.length⟩ : BatchResult))
            (batches.take k) := by
        rw [List.filter_append, hfilter_map]
        simp
      have hval : (runBatches ok batches).success =
          decide (((runBatchesAux ok batches 0).filter
            (fun r => r.success)).length = batches.length) := rfl
      rw [hval, hres, hfilterA, List.length_map, List.length_take] at hsucc
      have : min k batches.length = batches.length := of_decide_eq_true hsucc
      omega
    · intro hall
      have hres := runBatchesAux_all_ok ok batches 0
        (fun j hj => by simpa using hall j hj)
      have hval : (runBatches ok batches).success =
          decide (((runBatchesAux ok batches 0).filter
            (fun r => r.success)).length = batches.length) := rfl
      rw [hval, hres, hfilter_map]
      simp
  · intro k hk hpre hfail
    have hres : runBatchesAux ok batches 0 =
        (batches.take k).map (fun b => ⟨true, b.length⟩) ++ [⟨false, 0⟩] :=
      runBatchesAux_fail_at ok batches 0 k hk
        (fun j hj => by simpa using hpre j hj) (by simpa using hfail)
    have hfilterA : List.filter (fun r : BatchResult => r.success)
          (List.map (fun b : List Row => (⟨true, b.length⟩ : BatchResult))
            (batches.take k) ++ [⟨false, 0⟩]) =
        List.map (fun b : List Row => (⟨true, b.length⟩ : BatchResult))
          (batches.take k) := by
      rw [List.filter_append, hfilter_map]
      simp
    have htk : (batches.take k).length = k := by
      rw [List.length_take]; omega
    refine ⟨hres, ?_, ?_, ?_⟩
    · have hval : (runBatches ok batches).success =
          decide (((runBatchesAux ok batches 0).filter
            (fun r => r.success)).length = batches.length) := rfl
      rw [hval, hres, hfilterA, List.length_map, htk]
      have hne : k ≠ batches.length := by omega
      simp [hne]
    · have hval : (runBatches ok batches).batches_uploaded =
          ((runBatchesAux ok batches 0).filter (fun r => r.success)).length := rfl
      rw [hval, hres, hfilterA, List.length_map, htk]
    · have hval : (runBatches ok batches).records_uploaded =
          (((runBatchesAux ok batches 0).filter (fun r => r.success)).map
            (fun r => r.records_uploaded)).sum := rfl
      rw [hval, hres, hfilterA, List.map_map]
      rfl

/-- Witness for C3: three one-row batches, the request for batch 2 of 3
fails. -/
theorem upload_halts_on_first_failure_witness :
    (1 : Nat) < ([[[("a", "1")]], [[("b", "2")]], [[("c", "3")]]] : List (List Row)).length ∧
      (runBatches (fun j => j != 1)
          [[[("a", "1")]], [[("b", "2")]], [[("c", "3")]]]).success = false ∧
      (runBatches (fun j => j != 1)
          [[[("a", "1")]], [[("b", "2")]], [[("c", "3")]]]).batches_uploaded = 1 := by
  have h := (upload_halts_on_first_failure (fun j => j != 1)
    [[[("a", "1")]], [[("b", "2")]], [[("c", "3")]]]).2 1 (by decide)
    (fun j hj => by interval_cases j; rfl) (by decide)
  exact ⟨by decide, h.2.1, h.2.2.1⟩

/-! ### Python string helpers

Lean's own `String.trim`/`String.splitOn` are defined by well-founded
recursion on positions and do not reduce inside the kernel, so the Python
`str` operations the parser uses are embedded structurally on `List Char`. -/

/-- Whitespace for `str.strip()` (ASCII). -/
def isSpaceChar (c : Char) : Bool :=
  c == ' ' || c == '\t' || c == '\n' || c == '\r' || c.toNat == 11 || c.toNat == 12

/-- `str.strip()`. -/
def pyStrip (s : String) : String :=
  String.mk ((((s.data.dropWhile isSpaceChar).reverse).dropWhile isSpaceChar).reverse)

/-- `sep in s` for a one-character separator. -/
def pyContains (s : String) (c : Char) : Bool := s.data.contains c

/-- `str.split(sep)` on a one-character separator, on the character list. -/
def splitOnChar (sep : Char) : List Char → List (List Char)
  | [] => [[]]
  | c :: rest =>
      match splitOnChar sep rest with
      | [] => [[]]
      | cur :: parts =>
          if c == sep then [] :: cur :: parts else (c :: cur) :: parts

/-- `str.split(sep)` for a one-character separator. -/
def pySplit (sep : Char) (s : String) : List String :=
  (splitOnChar sep s.data).map String.mk

/-! ### The month specifier parser (`parse_month_range`)

Identical copies live in `cloudzero.py` and `cloudzero_upload.py`.  Raised
`ValueError`s are embedded as `Except.error`.  `re`'s `\d` is modelled as an
ASCII digit, and `strftime("%Y-%m")` as the documented zero-padded rendering
(`pad4`/`pad2`).  The `while current <= end` loop that steps month-by-month
with a year carry is embedded as a map over consecutive linear month indices
(`12 * year + (month - 1)`), which is exactly the sequence of states the
loop visits.  The `strptime(s + "-01", "%Y-%m-%d")` calendar check on a
string already matching `^\d{4}-\d{2}$` amounts to: month between 1 and 12
and year at least 1 (`datetime` rejects year 0; day 01 always parses). -/

/-- Year and month read from a string already known to match
`^\d{4}-\d{2}$` (positions 0-3 and 5-6). -/
def patYM (s : String) : Nat × Nat :=
  match s.data with
  | [a, b, c, d, _e, f, g] =>
      (1000 * (a.toNat - 48) + 100 * (b.toNat - 48) + 10 * (c.toNat - 48) +
        (d.toNat - 48), 10 * (f.toNat - 48) + (g.toNat - 48))
  | _ => (0, 0)

/-- Linear month index used to embed the month-stepping loop. -/
def monthIdx (y mo : Nat) : Nat := 12 * y + (mo - 1)

/-- `"%04d"` rendering of a year (what `strftime("%Y")` documents). -/
def pad4 (n : Nat) : String :=
  String.mk [Nat.digitChar (n / 1000 % 10), Nat.digitChar (n / 100 % 10),
    Nat.digitChar (n / 10 % 10), Nat.digitChar (n % 10)]

/-- `"%02d"` rendering of a month number. -/
def pad2 (n : Nat) : String :=
  String.mk [Nat.digitChar (n / 10 % 10), Nat.digitChar (n % 10)]

/-- `current.strftime("%Y-%m")` at linear month index `idx`. -/
def fmtMonth (idx : Nat) : String :=
  pad4 (idx / 12) ++ "-" ++ pad2 (idx % 12 + 1)

/-- The `while current <= end_date` loop: one formatted month per index from
`a` to `b` inclusive. -/
def monthsFromTo (a b : Nat) : List String :=
  (List.range (b + 1 - a)).map (fun i => fmtMonth (a + i))

/-- `parse_month_range(month_input)`: empty input is rejected; an input with
`:` is an inclusive range (components regex-checked, then calendar-checked
via `strptime`, start not after end); an input with `,` is a list of
regex-checked components; otherwise a single regex-checked month. -/
def parseMonthRange (input : String) : Except String (List String) :=
  if pyStrip input = "" then .error "Month input cannot be empty"
  else if pyContains input ':' then
    match pySplit ':' input with
    | [s0, e0] =>
        if monthPattern (pyStrip s0) && monthPattern (pyStrip e0) then
          if 1 ≤ (patYM (pyStrip s0)).1 ∧ 1 ≤ (patYM (pyStrip s0)).2 ∧
              (patYM (pyStrip s0)).2 ≤ 12 ∧ 1 ≤ (patYM (pyStrip e0)).1 ∧
              1 ≤ (patYM (pyStrip e0)).2 ∧ (patYM (pyStrip e0)).2 ≤ 12 then
            if (patYM (pyStrip e0)).1 < (patYM (pyStrip s0)).1 ∨
                ((patYM (pyStrip s0)).1 = (patYM (pyStrip e0)).1 ∧
                  (patYM (pyStrip e0)).2 < (patYM (pyStrip s0)).2) then
              .error "Start month cannot be after end month"
            else
              .ok (monthsFromTo
                (monthIdx (patYM (pyStrip s0)).1 (patYM (pyStrip s0)).2)
                (monthIdx (patYM (pyStrip e0)).1 (patYM (pyStrip e0)).2))
          else .error "Invalid date format"
        else .error "Month format must be YYYY-MM"
    | _ => .error "Month range must have exactly one colon separator"
  else if pyContains input ',' then
    if ((pySplit ',' input).map pyStrip).all monthPattern then
      .ok ((pySplit ',' input).map pyStrip)
    else .error "Invalid month format. Must be YYYY-MM"
  else
    if monthPattern (pyStrip input) then .ok [pyStrip input]
    else .error "Invalid month format. Must be YYYY-MM"

theorem isDigitChar_digitChar {n : Nat} (h : n < 10) :
    isDigitChar (Nat.digitChar n) = true := by
  interval_cases n <;> decide

theorem monthPattern_fmtMonth (idx : Nat) :
    monthPattern (fmtMonth idx) = true := by
  have hdata : (fmtMonth idx).data =
      [Nat.digitChar (idx / 12 / 1000 % 10), Nat.digitChar (idx / 12 / 100 % 10),
        Nat.digitChar (idx / 12 / 10 % 10), Nat.digitChar (idx / 12 % 10), '-',
        Nat.digitChar ((idx % 12 + 1) / 10 % 10),
        Nat.digitChar ((idx % 12 + 1) % 10)] := by
    simp [fmtMonth, pad4, pad2]
  simp [monthPattern, hdata, isDigitChar_digitChar (Nat.mod_lt _ (by omega))]

/-- C2 (amended): every component the parser returns matches the
`^\d{4}-\d{2}$` regex (inputs with a component failing it are rejected);
the range and comma examples parse as the spec shows; but calendar validity
is enforced only in the range branch, so `parse("2024-13")` succeeds with
`["2024-13"]` instead of failing. -/
theorem month_parser_components (input : String) (out : List String)
    (hok : parseMonthRange input = .ok out) :
    (∀ c ∈ out, monthPattern c = true) ∧
      parseMonthRange "2024-11:2025-02" =
        .ok ["2024-11", "2024-12", "2025-01", "2025-02"] ∧
      parseMonthRange "2024-08,2024-09,2024-11" =
        .ok ["2024-08", "2024-09", "2024-11"] ∧
      parseMonthRange "2024-13" = .ok ["2024-13"] := by
  refine ⟨?_, by decide, by decide, by decide⟩
  intro c hc
  unfold parseMonthRange at hok
  split at hok
  · exact absurd hok (by simp)
  · split at hok
    · split at hok
      · split at hok
        · split at hok
          · split at hok
            · exact absurd hok (by simp)
            · have hout := (Except.ok.inj hok).symm
              subst hout
              simp only [monthsFromTo, List.mem_map] at hc
              obtain ⟨i, _, rfl⟩ := hc
              exact monthPattern_fmtMonth _
          · exact absurd hok (by simp)
        · exact absurd hok (by simp)
      · exact absurd hok (by simp)
    · split at hok
      · split at hok
        · rename_i hall
          have hout := (Except.ok.inj hok).symm
          subst hout
          exact List.all_eq_true.mp hall c hc
        · exact absurd hok (by simp)
      · split at hok
        · rename_i hpat
          have hout := (Except.ok.inj hok).symm
          subst hout
          simp only [List.mem_singleton] at hc
          subst hc
          exact hpat
        · exact absurd hok (by simp)

/-- Witness for C2: a concrete accepted input and returned component. -/
theorem month_parser_components_witness :
    parseMonthRange "2024-08" = .ok ["2024-08"] ∧
      "2024-08" ∈ ["2024-08"] ∧ monthPattern "2024-08" = true := by
  refine ⟨by decide, by decide, ?_⟩
  exact (month_parser_components "2024-08" ["2024-08"] (by decide)).1
    "2024-08" (by decide)

/-- Counterexample to C2 as stated: the spec says `parse("2024-13")` fails,
but the single-month branch only checks the regex `^\d{4}-\d{2}$`, which
`"2024-13"` matches, so the call returns `["2024-13"]` without raising. -/
theorem month_parser_accepts_2024_13 :
    parseMonthRange "2024-13" = .ok ["2024-13"] := by
  decide

/-! ### Decimal amounts

Monetary amounts flow through Python as `float(...)` of decimal literals and
back out as `str(...)`.  They are embedded as scaled decimals (mantissa over
a power of ten), which agrees with Python floats on every sign / zero /
comparison question the code asks (IEEE-754 rounding preserves sign and
zero-ness of decimal literals); `str(float)`'s shortest-roundtrip digit
choice is modelled by the plain decimal rendering with trailing zeros
stripped.  Scientific notation, `inf`/`nan` and digit underscores are not
modelled: such strings count as unparsable. -/

/-- A decimal number `m / 10 ^ e`. -/
structure Dec where
  m : Int
  e : Nat
deriving DecidableEq, Repr

/-- The rational value of a `Dec`. -/
def Dec.toRat (d : Dec) : ℚ := (d.m : ℚ) / (10 : ℚ) ^ d.e

/-- The executable form of `value < 0` on a decimal: rationals in Lean do not
reduce inside the kernel (gcd normalization), but the comparison a Python
float makes is exactly the sign of the mantissa — see `Dec.isNeg_iff`. -/
def Dec.isNeg (d : Dec) : Bool := decide (d.m < 0)

/-- The executable form of `value != 0` (float truthiness). -/
def Dec.isNonzero (d : Dec) : Bool := decide (d.m ≠ 0)

theorem Dec.isNeg_eq_true_iff (d : Dec) : d.isNeg = true ↔ d.m < 0 := by
  simp [Dec.isNeg]

/-- Value of a digit string. -/
def natFromDigits (ds : List Char) : Nat :=
  ds.foldl (fun a c => 10 * a + (c.toNat - 48)) 0

/-- Digits, optional `.`, digits — the unsigned part of a decimal literal. -/
def parseDecAux (sign : Int) (cs : List Char) : Option Dec :=
  match cs.dropWhile isDigitChar with
  | [] => if (cs.takeWhile isDigitChar).isEmpty then none
      else some ⟨sign * natFromDigits (cs.takeWhile isDigitChar), 0⟩
  | '.' :: rest2 =>
      if (rest2.dropWhile isDigitChar).isEmpty ∧
          ((cs.takeWhile isDigitChar) ≠ [] ∨ (rest2.takeWhile isDigitChar) ≠ []) then
        some ⟨sign * natFromDigits
            ((cs.takeWhile isDigitChar) ++ (rest2.takeWhile isDigitChar)),
          (rest2.takeWhile isDigitChar).length⟩
      else none
  | _ => none

/-- `float(s)` on a plain signed decimal literal (surrounding whitespace
stripped); `none` models `ValueError`. -/
def parseDec (s : String) : Option Dec :=
  match (pyStrip s).data with
  | '-' :: cs => parseDecAux (-1) cs
  | '+' :: cs => parseDecAux 1 cs
  | cs => parseDecAux 1 cs

/-- Drop trailing zero fraction digits (`5.50` prints as `5.5`). -/
def stripZeros : Int → Nat → Int × Nat
  | m, 0 => (m, 0)
  | m, k + 1 => if m % 10 = 0 then stripZeros (m / 10) k else (m, k + 1)

/-- `str(float_value)`: sign, integer digits, `.`, fraction digits (at least
one — integers print as `5.0`). -/
def renderDec (d : Dec) : String :=
  (if d.m < 0 then "-" else "") ++
    (if (stripZeros d.m d.e).2 = 0 then
      toString (stripZeros d.m d.e).1.natAbs ++ ".0"
    else
      toString ((stripZeros d.m d.e).1.natAbs / 10 ^ (stripZeros d.m d.e).2) ++
        "." ++
        String.mk (List.replicate ((stripZeros d.m d.e).2 -
          (toString ((stripZeros d.m d.e).1.natAbs % 10 ^ (stripZeros d.m d.e).2)).length) '0') ++
        toString ((stripZeros d.m d.e).1.natAbs % 10 ^ (stripZeros d.m d.e).2))

theorem Dec.toRat_neg_iff (d : Dec) : d.toRat < 0 ↔ d.m < 0 := by
  have hp : (0 : ℚ) < (10 : ℚ) ^ d.e := by positivity
  rw [Dec.toRat, div_neg_iff]
  constructor
  · rintro (⟨_, h⟩ | ⟨h, _⟩)
    · exact absurd h (by linarith)
    · exact_mod_cast h
  · intro h
    exact Or.inr ⟨by exact_mod_cast h, hp⟩

/-- A negative amount renders with a leading minus sign. -/
theorem renderDec_neg_head {d : Dec} (h : d.m < 0) :
    (renderDec d).data.head? = some '-' := by
  unfold renderDec
  rw [if_pos h]
  rcases hsz : (stripZeros d.m d.e).2 with _ | k
  · rw [if_pos rfl]
    simp
  · rw [if_neg (by omega)]
    simp

/-! ### Line-item classification (C6) -/

/-- `str.lower()` (ASCII letters, which is all the code compares). -/
def pyLower (s : String) : String := String.mk (s.data.map Char.toLower)

/-- `str.replace(old, new)` for single characters. -/
def pyReplace (s : String) (old new : Char) : String :=
  String.mk (s.data.map (fun c => if c = old then new else c))

/-- `sub in hay` (substring containment). -/
def strContainsAux (needle : List Char) : List Char → Bool
  | [] => needle.isEmpty
  | c :: rest => needle.isPrefixOf (c :: rest) || strContainsAux needle rest

/-- `sub in hay` on strings. -/
def strContains (hay sub : String) : Bool := strContainsAux sub.data hay.data

/-- `sub.startswith(pre)`. -/
def strStartsWith (s pre : String) : Bool := pre.data.isPrefixOf s.data

/-- `determine_lineitem_type(item)` from `oci_transform.py`: the item's
service (`getattr(item, 'service', '')`) lower-cased, `None` amounts treated
as 0; negative amounts are `Discount`, then substring checks in order
`support`, `reserved`/`commitment`, `credit`, else `Usage`. -/
def determine_lineitem_type (service : String) (computed_amount : Option Dec) :
    String :=
  if (computed_amount.getD ⟨0, 0⟩).isNeg then "Discount"
  else if strContains (pyLower service) "support" then "Support"
  else if strContains (pyLower service) "reserved" ||
      strContains (pyLower service) "commitment" then "CommittedUsePurchase"
  else if strContains (pyLower service) "credit" then "Discount"
  else "Usage"

/-- `determine_lineitem_type_from_csv(record, cost_value)` from
`csv_to_cbf.py`: same chain over `record.get('service', '').lower()`. -/
def determine_lineitem_type_from_csv (record : Row) (cost_value : Dec) : String :=
  if cost_value.isNeg then "Discount"
  else if strContains (pyLower ((record.lookup "service").getD "")) "support" then
    "Support"
  else if strContains (pyLower ((record.lookup "service").getD "")) "reserved" ||
      strContains (pyLower ((record.lookup "service").getD "")) "commitment" then
    "CommittedUsePurchase"
  else if strContains (pyLower ((record.lookup "service").getD "")) "credit" then
    "Discount"
  else "Usage"

/-- The classification priority exactly as the spec words it (first match
wins): negative amount → Discount; service contains "support"
(case-insensitively) → Support; contains "reserved" or "commitment" →
CommittedUsePurchase; contains "credit" → Discount; otherwise Usage. -/
def lineItemTypeSpec (service : String) (amount : ℚ) : String :=
  if amount < 0 then "Discount"
  else if strContains (pyLower service) "support" then "Support"
  else if strContains (pyLower service) "reserved" ||
      strContains (pyLower service) "commitment" then "CommittedUsePurchase"
  else if strContains (pyLower service) "credit" then "Discount"
  else "Usage"

/-- C6: both classifiers are total functions of (service name, computed
amount) and realize exactly the spec's priority order; in particular a
positive-amount "Reserved Support" service is `Support`, because `support`
is tested before `reserved`. -/
theorem classification_priority_order :
    (∀ (service : String) (amount : Option Dec),
        determine_lineitem_type service amount =
          lineItemTypeSpec service (amount.getD ⟨0, 0⟩).toRat) ∧
      (∀ (record : Row) (cost : Dec),
        determine_lineitem_type_from_csv record cost =
          lineItemTypeSpec ((record.lookup "service").getD "") cost.toRat) ∧
      determine_lineitem_type "Reserved Support" (some ⟨5, 0⟩) = "Support" ∧
      determine_lineitem_type_from_csv [("service", "Reserved Support")] ⟨5, 0⟩ =
        "Support" := by
  have hbridge : ∀ (service : String) (d : Dec),
      (if d.isNeg then "Discount"
        else if strContains (pyLower service) "support" then "Support"
        else if strContains (pyLower service) "reserved" ||
            strContains (pyLower service) "commitment" then "CommittedUsePurchase"
        else if strContains (pyLower service) "credit" then "Discount"
        else "Usage") = lineItemTypeSpec service d.toRat := by
    intro service d
    by_cases h : d.m < 0
    · rw [if_pos ((Dec.isNeg_eq_true_iff d).mpr h), lineItemTypeSpec,
        if_pos ((Dec.toRat_neg_iff d).mpr h)]
    · rw [if_neg (fun hc => h ((Dec.isNeg_eq_true_iff d).mp hc)), lineItemTypeSpec,
        if_neg (fun hc => h ((Dec.toRat_neg_iff d).mp hc))]
  refine ⟨fun service amount => hbridge service _,
    fun record cost => hbridge _ _, ?_, ?_⟩ <;> decide

/-! ### The CSV normalizer (`csv_to_cbf.py transform_csv_to_cbf`)

`datetime.now()` (used when a timestamp is missing) is impure; its rendered
value is passed in as the explicit parameter `nowStr`. -/

/-- `format_csv_usage_time(time_str)`. -/
def format_csv_usage_time (nowStr : String) (t : Option String) : String :=
  match t with
  | none => nowStr
  | some ts =>
      if pyStrip ts = "" then nowStr
      else if pyContains ts 'T' then ts
      else ts ++ "T00:00:00.000000Z"

/-- `build_resource_id_from_csv(record)`. -/
def build_resource_id_from_csv (record : Row) : String :=
  if (record.lookup "resource_id").getD "" ≠ "" ∧
      pyStrip ((record.lookup "resource_id").getD "") ≠ "" then
    (record.lookup "resource_id").getD ""
  else if (record.lookup "resource_name").getD "" ≠ "" ∧
      pyStrip ((record.lookup "resource_name").getD "") ≠ "" then
    (record.lookup "resource_name").getD ""
  else
    pyReplace (pyLower ((record.lookup "service").getD "unknown") ++ "-" ++
      (record.lookup "region").getD "unknown-region" ++ "-" ++
      (record.lookup "compartment_name").getD "unknown-compartment") ' ' '-'

/-- One `if record.get(k): cbf_row[outK] = record[k]` optional field. -/
def optField (record : Row) (k outK : String) : Row :=
  match record.lookup k with
  | some v => if v ≠ "" then [(outK, v)] else []
  | none => []

/-- The `computed_quantity` field: added as `str(float(...))` when present,
non-empty and parsable. -/
def quantityField (record : Row) : Row :=
  match record.lookup "computed_quantity" with
  | some v =>
      if v ≠ "" then
        match parseDec v with
        | some d => [("billing/quantity", renderDec d)]
        | none => []
      else []
  | none => []

/-- The `tags` field: any non-empty tag string other than the literal `null`
(or any string starting with `[\x7b`) adds a `tag/source` marker. -/
def tagField (record : Row) : Row :=
  match record.lookup "tags" with
  | some t =>
      if t ≠ "" then
        if (t ≠ "null" ∧ ¬ strStartsWith t "[\x7b" = true) ∨
            strStartsWith t "[\x7b" = true then
          [("tag/source", "oci-csv")]
        else []
      else []
  | none => []

/-- The per-record body of `transform_csv_to_cbf`'s loop: records with a
missing or empty `computed_amount` are skipped (`continue`); otherwise the
amount is parsed (unparsable → `0.0`), classified, and a CBF row is built;
`cost/discounted_cost` equals `cost/cost` on both branches of the negative
check. -/
def transformOne (nowStr : String) (record : Row) : Option Row :=
  if record.lookup "computed_amount" = none ∨
      record.lookup "computed_amount" = some "" then
    none
  else
    some (([("lineitem/type", determine_lineitem_type_from_csv record
        ((parseDec ((record.lookup "computed_amount").getD "")).getD ⟨0, 0⟩)),
      ("resource/service", (record.lookup "service").getD "Unknown"),
      ("resource/id", build_resource_id_from_csv record),
      ("time/usage_start", format_csv_usage_time nowStr
        (record.lookup "time_usage_started")),
      ("cost/cost", renderDec
        ((parseDec ((record.lookup "computed_amount").getD "")).getD ⟨0, 0⟩)),
      ("cost/discounted_cost", renderDec
        ((parseDec ((record.lookup "computed_amount").getD "")).getD ⟨0, 0⟩))] : Row)
      ++ optField record "region" "resource/region"
      ++ optField record "compartment_name" "resource/compartment"
      ++ optField record "shape" "resource/shape"
      ++ optField record "unit" "billing/unit"
      ++ quantityField record
      ++ tagField record)

/-- `transform_csv_to_cbf(oci_records)`. -/
def transform_csv_to_cbf (nowStr : String) (records : List Row) : List Row :=
  records.filterMap (transformOne nowStr)

/-! ### The API normalizer (`oci_transform.py transform_oci_to_cbf`)

The attributes the code reads off an OCI usage item, with `hasattr`-guarded
optional attributes as `Option` fields; `format_usage_time` passes string
timestamps through unchanged (the `datetime` branch renders structured
values outside this embedding, so the field holds the rendered string). -/

structure OciItem where
  service : String
  computed_amount : Option Dec
  time_usage_started : String
  resource_id : Option String
  resource_name : Option String
  region : Option String
  compartment_name : Option String
  shape : Option String
  unit : Option String
  computed_quantity : Option Dec
  freeform_tags : List (String × String)
deriving DecidableEq, Repr

/-- `build_resource_id(item)` from `oci_transform.py`. -/
def build_resource_id (item : OciItem) : String :=
  if item.resource_id.getD "" ≠ "" then item.resource_id.getD ""
  else if item.resource_name.getD "" ≠ "" then item.resource_name.getD ""
  else
    pyReplace (pyLower item.service ++ "-" ++ item.region.getD "unknown-region"
      ++ "-" ++ item.compartment_name.getD "unknown-compartment") ' ' '-'

/-- An optional string attribute emitted when present and truthy. -/
def ociOptField (v : Option String) (outK : String) : Row :=
  match v with
  | some s => if s ≠ "" then [(outK, s)] else []
  | none => []

/-- The per-item body of `transform_oci_to_cbf`'s loop: `None` amounts become
`0.0`; a negative amount forces `lineitem/type` to `Discount`
(`if float(cost) < 0`, i.e. the sign of the parsed value);
`cost/discounted_cost` equals `cost/cost` on both branches; optional fields
and lower-cased `tag/` keys are appended when truthy. -/
def transformOciOne (item : OciItem) : Row :=
  ([("lineitem/type",
      if (item.computed_amount.getD ⟨0, 0⟩).isNeg then "Discount"
      else determine_lineitem_type item.service item.computed_amount),
    ("resource/service", if item.service ≠ "" then item.service else "Unknown"),
    ("resource/id", build_resource_id item),
    ("time/usage_start", item.time_usage_started),
    ("cost/cost", renderDec (item.computed_amount.getD ⟨0, 0⟩)),
    ("cost/discounted_cost", renderDec (item.computed_amount.getD ⟨0, 0⟩))] : Row)
  ++ ociOptField item.region "resource/region"
  ++ ociOptField item.compartment_name "resource/compartment"
  ++ ociOptField item.shape "resource/shape"
  ++ ociOptField item.unit "billing/unit"
  ++ (match item.computed_quantity with
      | some q => if q.isNonzero then [("usage/amount", renderDec q)] else []
      | none => [])
  ++ (if item.freeform_tags ≠ [] then
        item.freeform_tags.map (fun kv => ("tag/" ++ pyLower kv.1, kv.2))
      else [])

/-- `transform_oci_to_cbf(oci_usage_items)`. -/
def transform_oci_to_cbf (oci_usage_items : List OciItem) : List Row :=
  oci_usage_items.map transformOciOne

/-- C7: a record whose computed amount parses negative is emitted as a
`Discount` row whose `cost/cost` and `cost/discounted_cost` are the string
rendering of that same (negative) value — never clamped or made positive —
and the rendered string carries the leading minus sign.  Stated for both the
CSV normalizer and the API normalizer. -/
theorem negative_amount_discount_and_sign :
    (∀ (nowStr : String) (record : Row) (v : String) (d : Dec),
        record.lookup "computed_amount" = some v → v ≠ "" →
        parseDec v = some d → d.toRat < 0 →
        ∃ row, transformOne nowStr record = some row ∧
          row.lookup "lineitem/type" = some "Discount" ∧
          row.lookup "cost/cost" = some (renderDec d) ∧
          row.lookup "cost/discounted_cost" = some (renderDec d) ∧
          (renderDec d).data.head? = some '-') ∧
      ∀ (item : OciItem) (d : Dec), item.computed_amount = some d →
        d.toRat < 0 →
        (transformOciOne item).lookup "lineitem/type" = some "Discount" ∧
        (transformOciOne item).lookup "cost/cost" = some (renderDec d) ∧
        (transformOciOne item).lookup "cost/discounted_cost" = some (renderDec d) ∧
        (renderDec d).data.head? = some '-' := by
  constructor
  · intro nowStr record v d h1 h2 h3 h4
    have hm : d.m < 0 := (Dec.toRat_neg_iff d).mp h4
    have hskip : ¬(record.lookup "computed_amount" = none ∨
        record.lookup "computed_amount" = some "") := by
      simp [h1, h2]
    have hd : (parseDec ((record.lookup "computed_amount").getD "")).getD ⟨0, 0⟩
        = d := by
      rw [h1, Option.getD_some, h3, Option.getD_some]
    have htype : determine_lineitem_type_from_csv record d = "Discount" := by
      rw [determine_lineitem_type_from_csv,
        if_pos ((Dec.isNeg_eq_true_iff d).mpr hm)]
    refine ⟨_, by rw [transformOne, if_neg hskip], ?_, ?_, ?_,
      renderDec_neg_head hm⟩
    · rw [hd]
      simp [List.lookup, htype]
    · rw [hd]
      simp [List.lookup]
    · rw [hd]
      simp [List.lookup]
  · intro item d h1 h4
    have hm : d.m < 0 := (Dec.toRat_neg_iff d).mp h4
    have hd : item.computed_amount.getD ⟨0, 0⟩ = d := by
      rw [h1, Option.getD_some]
    refine ⟨?_, ?_, ?_, renderDec_neg_head hm⟩
    all_goals
      rw [transformOciOne, hd]
      simp [List.lookup, (Dec.isNeg_eq_true_iff d).mpr hm]

/-- Witness for C7: a record with amount `-5.5` and a plain service. -/
theorem negative_amount_discount_and_sign_witness :
    ([("computed_amount", "-5.5"), ("service", "Compute")] : Row).lookup
        "computed_amount" = some "-5.5" ∧
      ("-5.5" : String) ≠ "" ∧
      parseDec "-5.5" = some ⟨-55, 1⟩ ∧
      Dec.toRat ⟨-55, 1⟩ < 0 ∧
      ∃ row, transformOne "2025-01-01T00:00:00.000000Z"
            [("computed_amount", "-5.5"), ("service", "Compute")] = some row ∧
          row.lookup "lineitem/type" = some "Discount" ∧
          row.lookup "cost/cost" = some (renderDec ⟨-55, 1⟩) ∧
          row.lookup "cost/discounted_cost" = some (renderDec ⟨-55, 1⟩) ∧
          (renderDec ⟨-55, 1⟩).data.head? = some '-' := by
  have hneg : Dec.toRat ⟨-55, 1⟩ < 0 := by
    rw [(Dec.toRat_neg_iff ⟨-55, 1⟩)]
    decide
  exact ⟨by decide, by decide, by decide, hneg,
    negative_amount_discount_and_sign.1 "2025-01-01T00:00:00.000000Z"
      [("computed_amount", "-5.5"), ("service", "Compute")] "-5.5" ⟨-55, 1⟩
      (by decide) (by decide) (by decide) hneg⟩

/-- C8: a record whose computed amount is missing (or empty) is skipped — the
surrounding records still transform; a record whose amount is present but
unparsable is emitted with `cost/cost = "0.0"` — again with the surrounding
records intact; an API item with `None` amount likewise gets `"0.0"`.  In no
case does one bad record abort the batch (the transforms are total). -/
theorem bad_amount_degrades_locally :
    (∀ (nowStr : String) (pre post : List Row) (record : Row),
        (record.lookup "computed_amount" = none ∨
          record.lookup "computed_amount" = some "") →
        transform_csv_to_cbf nowStr (pre ++ record :: post) =
          transform_csv_to_cbf nowStr pre ++ transform_csv_to_cbf nowStr post) ∧
      (∀ (nowStr : String) (pre post : List Row) (record : Row) (v : String),
        record.lookup "computed_amount" = some v → v ≠ "" → parseDec v = none →
        ∃ row, transformOne nowStr record = some row ∧
          row.lookup "cost/cost" = some "0.0" ∧
          transform_csv_to_cbf nowStr (pre ++ record :: post) =
            transform_csv_to_cbf nowStr pre ++ row ::
              transform_csv_to_cbf nowStr post) ∧
      ∀ item : OciItem, item.computed_amount = none →
        (transformOciOne item).lookup "cost/cost" = some "0.0" := by
  refine ⟨?_, ?_, ?_⟩
  · intro nowStr pre post record hbad
    have hnone : transformOne nowStr record = none := by
      rw [transformOne, if_pos hbad]
    simp [transform_csv_to_cbf, List.filterMap_append, List.filterMap_cons, hnone]
  · intro nowStr pre post record v h1 h2 h3
    have hskip : ¬(record.lookup "computed_amount" = none ∨
        record.lookup "computed_amount" = some "") := by
      simp [h1, h2]
    have hd : (parseDec ((record.lookup "computed_amount").getD "")).getD ⟨0, 0⟩
        = ⟨0, 0⟩ := by
      rw [h1, Option.getD_some, h3, Option.getD_none]
    rcases hres : transformOne nowStr record with _ | row
    · rw [transformOne, if_neg hskip] at hres
      exact absurd hres (by simp)
    · refine ⟨row, rfl, ?_, ?_⟩
      · rw [transformOne, if_neg hskip] at hres
        have hrow := Option.some.inj hres
        subst hrow
        rw [hd]
        have h00 : renderDec ⟨0, 0⟩ = "0.0" := by decide
        simp [List.lookup, h00]
      · simp [transform_csv_to_cbf, List.filterMap_append, List.filterMap_cons,
          hres]
  · intro item h1
    rw [transformOciOne, h1]
    have h00 : renderDec ⟨0, 0⟩ = "0.0" := by decide
    simp [List.lookup, Option.getD_none, h00]

/-- Witness for C8: a skipped record (missing amount), a zeroed record
(amount `"abc"`), and a `None`-amount API item. -/
theorem bad_amount_degrades_locally_witness :
    (([("service", "Compute")] : Row).lookup "computed_amount" = none ∨
        ([("service", "Compute")] : Row).lookup "computed_amount" = some "") ∧
      transform_csv_to_cbf "now" ([[("service", "Compute")]] ++
          [("service", "Compute")] :: []) =
        transform_csv_to_cbf "now" [[("service", "Compute")]] ++
          transform_csv_to_cbf "now" [] ∧
      ([("computed_amount", "abc")] : Row).lookup "computed_amount" =
          some "abc" ∧
      parseDec "abc" = none ∧
      (∃ row, transformOne "now" [("computed_amount", "abc")] = some row ∧
        row.lookup "cost/cost" = some "0.0" ∧
        transform_csv_to_cbf "now" ([] ++ [("computed_amount", "abc")] :: []) =
          transform_csv_to_cbf "now" [] ++ row :: transform_csv_to_cbf "now" []) := by
  refine ⟨Or.inl (by decide), ?_, by decide, by decide, ?_⟩
  · exact bad_amount_degrades_locally.1 "now" [[("service", "Compute")]] []
      [("service", "Compute")] (Or.inl (by decide))
  · exact bad_amount_degrades_locally.2.1 "now" [] [] [("computed_amount", "abc")]
      "abc" (by decide) (by decide) (by decide)

/-! ### CSV output and read-back (C9)

`write_cbf_csv` (`csv_to_cbf.py`) collects the union of keys over all rows,
sorts it (`sorted(list(set(...)))`), and writes one line per row with
missing keys rendered as the empty string (`csv.DictWriter`, default
`restval=''`).  `read_csv` (`cloudzero_upload.py`) is `list(csv.DictReader
(file))`, i.e. each data line zipped against the header.  The `csv` module's
line codec is lossless, so the file is embedded at the record level: a
header row and a grid of cell strings.  Python's `sorted` is embedded as an
insertion sort (Lean's `mergeSort` does not reduce in the kernel). -/

/-- Keys of a row, in order. -/
def keysOf (r : Row) : List String := r.map Prod.fst

/-- Python string comparison (code-point lexicographic), directly on the
character lists so that it reduces in the kernel. -/
def strLeChars : List Char → List Char → Bool
  | [], _ => true
  | _ :: _, [] => false
  | c :: cs, d :: ds =>
      if c.toNat < d.toNat then true
      else if d.toNat < c.toNat then false
      else strLeChars cs ds

/-- `a <= b` on Python strings. -/
def pyStrLe (a b : String) : Bool := strLeChars a.data b.data

/-- Insert into a sorted list of strings. -/
def insertSorted (x : String) : List String → List String
  | [] => [x]
  | y :: ys => if pyStrLe x y then x :: y :: ys else y :: insertSorted x ys

/-- `sorted(l)` for strings. -/
def sortStrings (l : List String) : List String := l.foldr insertSorted []

/-- `sorted(list(set().union(keys of every row)))`. -/
def fieldnames (rows : List Row) : List String :=
  sortStrings ((rows.map keysOf).flatten.dedup)

/-- `write_cbf_csv(cbf_rows, ...)`: the header row and one cell line per CBF
row (`row.get(k, '')` per header key). -/
def write_cbf_csv (rows : List Row) : List String × List (List String) :=
  (fieldnames rows,
    rows.map (fun r => (fieldnames rows).map (fun k => (r.lookup k).getD "")))

/-- `read_csv(path)`: `csv.DictReader` — each data line zipped with the
header. -/
def read_csv (file : List String × List (List String)) : List Row :=
  file.2.map (fun vals => file.1.zip vals)

/-- "Same set of key/value pairs, ignoring key ordering" (the claim's
equivalence between a read-back row and the original). -/
def kvSame (r s : Row) : Prop := ∀ p : String × String, p ∈ r ↔ p ∈ s

theorem mem_insertSorted {x y : String} :
    ∀ {l : List String}, y ∈ insertSorted x l ↔ y = x ∨ y ∈ l := by
  intro l
  induction l with
  | nil => simp [insertSorted]
  | cons z zs ih =>
      by_cases h : pyStrLe x z = true
      · simp [insertSorted, h]
      · simp [insertSorted, h, ih]
        tauto

theorem mem_sortStrings {y : String} :
    ∀ {l : List String}, y ∈ sortStrings l ↔ y ∈ l := by
  intro l
  induction l with
  | nil => simp [sortStrings]
  | cons z zs ih =>
      simp only [sortStrings, List.foldr_cons] at *
      rw [mem_insertSorted, ih, List.mem_cons]

theorem mem_fieldnames {k : String} {rows : List Row} :
    k ∈ fieldnames rows ↔ ∃ r ∈ rows, k ∈ keysOf r := by
  rw [fieldnames, mem_sortStrings, List.mem_dedup, List.mem_flatten]
  constructor
  · rintro ⟨ks, hks, hk⟩
    obtain ⟨r, hr, rfl⟩ := List.mem_map.mp hks
    exact ⟨r, hr, hk⟩
  · rintro ⟨r, hr, hk⟩
    exact ⟨keysOf r, List.mem_map.mpr ⟨r, hr, rfl⟩, hk⟩

theorem lookup_eq_some_of_mem_nodup {r : Row} {k v : String}
    (hnd : (keysOf r).Nodup) (hm : (k, v) ∈ r) : r.lookup k = some v := by
  induction r with
  | nil => simp at hm
  | cons p rest ih =>
      obtain ⟨k1, v1⟩ := p
      rw [keysOf, List.map_cons, List.nodup_cons] at hnd
      rcases List.mem_cons.mp hm with heq | hmem
      · injection heq with hk hv
        subst hk
        subst hv
        simp [List.lookup]
      · have hk1 : k ≠ k1 := by
          intro hc
          subst hc
          exact hnd.1 (List.mem_map.mpr ⟨(k, v), hmem, rfl⟩)
        have : (k == k1) = false := beq_false_of_ne hk1
        simp [List.lookup, this]
        exact ih hnd.2 hmem

theorem zip_map_self {α β : Type} (f : α → β) :
    ∀ l : List α, l.zip (l.map f) = l.map (fun x => (x, f x)) := by
  intro l
  induction l with
  | nil => rfl
  | cons x xs ih => simp [ih]

/-- C9 (amended): when every row carries every key of the header (the union
of all keys) and rows have no duplicate keys (they are Python dicts),
reading the written CSV back reproduces, row by row, the same set of
key/value pairs.  (Without that totality condition a missing key reads back
as an extra `(key, "")` pair — see the counterexample.) -/
theorem csv_roundtrip_total_rows (rows : List Row)
    (hnodup : ∀ r ∈ rows, (keysOf r).Nodup)
    (htotal : ∀ r ∈ rows, ∀ k ∈ fieldnames rows, k ∈ keysOf r) :
    List.Forall₂ kvSame (read_csv (write_cbf_csv rows)) rows := by
  rw [read_csv, write_cbf_csv]
  simp only [List.map_map]
  have hrw : ∀ r : Row,
      (fieldnames rows).zip ((fieldnames rows).map (fun k => (r.lookup k).getD ""))
        = (fieldnames rows).map (fun k => (k, (r.lookup k).getD "")) :=
    fun r => zip_map_self _ _
  rw [List.forall₂_iff_get]
  constructor
  · simp
  · intro i h1 h2
    have hi : i < rows.length := by simpa using h2
    simp only [List.get_eq_getElem, List.getElem_map, Function.comp_apply]
    set r := rows[i] with hr
    have hrmem : r ∈ rows := by
      rw [hr]
      exact List.getElem_mem _
    rw [hrw r]
    intro p
    constructor
    · intro hp
      obtain ⟨k, hk, rfl⟩ := List.mem_map.mp hp
      have hkk : k ∈ keysOf r := htotal r hrmem k hk
      obtain ⟨⟨k1, v⟩, hkv, hfst⟩ := List.mem_map.mp hkk
      simp only at hfst
      subst hfst
      rw [lookup_eq_some_of_mem_nodup (hnodup r hrmem) hkv, Option.getD_some]
      exact hkv
    · intro hp
      obtain ⟨k, v⟩ := p
      have hk : k ∈ fieldnames rows :=
        mem_fieldnames.mpr ⟨r, hrmem, List.mem_map.mpr ⟨(k, v), hp, rfl⟩⟩
      refine List.mem_map.mpr ⟨k, hk, ?_⟩
      rw [lookup_eq_some_of_mem_nodup (hnodup r hrmem) hp, Option.getD_some]

/-- Witness for C9: two rows over the same two keys round-trip. -/
theorem csv_roundtrip_total_rows_witness :
    (∀ r ∈ ([[("a", "1"), ("b", "x")], [("b", "2"), ("a", "y")]] : List Row),
        (keysOf r).Nodup) ∧
      (∀ r ∈ ([[("a", "1"), ("b", "x")], [("b", "2"), ("a", "y")]] : List Row),
        ∀ k ∈ fieldnames [[("a", "1"), ("b", "x")], [("b", "2"), ("a", "y")]],
          k ∈ keysOf r) ∧
      List.Forall₂ kvSame
        (read_csv (write_cbf_csv [[("a", "1"), ("b", "x")], [("b", "2"), ("a", "y")]]))
        [[("a", "1"), ("b", "x")], [("b", "2"), ("a", "y")]] := by
  refine ⟨by decide, by decide, ?_⟩
  exact csv_roundtrip_total_rows _ (by decide) (by decide)

/-- Counterexample to C9 as stated: with rows `{a: 1}` and `{b: 2}` the
header is `[a, b]` and each row reads back with an extra `("", ...)`-valued
pair for its missing key, so the key/value sets differ. -/
theorem csv_roundtrip_counterexample :
    read_csv (write_cbf_csv [[("a", "1")], [("b", "2")]]) =
        [[("a", "1"), ("b", "")], [("a", ""), ("b", "2")]] ∧
      ¬ kvSame [("a", "1"), ("b", "")] [("a", "1")] := by
  constructor
  · decide
  · intro h
    have := (h ("b", "")).mp (by decide)
    exact absurd this (by decide)

end OciAdaptor
